import Mathlib

/-!
# A formal model of the `di-container` dependency-injection container

This file shallowly embeds the TypeScript DI container of this repository
(`src/di.ts`, `src/test.ts`, and the commented reference implementation in
the unnamed source file) into Lean and proves the specification's claims
about it.

The repository carries observably different copies of
`Container.resolve` / `Container.instantiate`:

* the **complete** resolver (the unnamed commented reference file):
  `instantiate` ends in `throw new ResolutionError("Unknown provider type")`
  and `resolve` ends by storing a freshly built Singleton instance in
  `this.singletons` — embedded below as `resolveF` / `instantiateF`;
* the `src/di.ts` resolver: the final `throw` is absent (`instantiate`
  falls through, returning `undefined`) and the `this.singletons.set(...)`
  block is absent (the Singleton cache is read but never written) —
  embedded below as `resolveDiF` / `instantiateDiF`;
* `src/test.ts` sits in between: it has the Singleton cache store (like
  the reference file) but not the final `throw` (like `di.ts`); its cache
  read uses the requested token where the others use `provider.token`
  (the same key for every provider that went through `setProvider`), and
  its `instantiate` checks `useValue` before `useFactory` (`useClass`
  still first).  It is not embedded separately: each claim names which
  behaviour it is settled against.

JavaScript being untyped and stateful, the embedding is explicit about
state: a `World` carries the containers (provider tables, singleton
caches, parent links), a heap of objects with identity (`Value.obj` ids
model JS reference identity, i.e. `===` on objects), an allocation
counter, and the ambient data of user code (class definitions, the
`propertyInjections` side table, `onInit` bodies).  Exceptions thread the
world through the error branch, matching JS where mutations performed
before a `throw` persist.  Recursion is fuel-indexed because property
injection restarts `resolve` with a fresh empty stack, so the source can
genuinely diverge; `DIError.outOfFuel` marks exhausted fuel and appears in
no claim.
-/

deriving instance DecidableEq for Except

namespace DI

/-- Scope of a provider, `enum Scope` in the source. -/
inductive Scope where
  | Singleton
  | Transient
deriving DecidableEq, Repr

/-- `type Token<T> = symbol | string | (new (...) => T)`.  A symbol is a
process-wide unique id plus an optional description; a constructor token
is an index into the world's class table. -/
inductive Token where
  | str (s : String)
  | sym (id : Nat) (descr : Option String)
  | ctor (classId : Nat)
deriving DecidableEq, Repr

/-- JavaScript runtime values, as far as the container observes them:
`undefined`, `null`, primitives, strings, and object references.  Two
`Value.obj` with the same id are the same object (`===`). -/
inductive Value where
  | undef
  | null
  | prim (n : Int)
  | strv (s : String)
  | obj (id : Nat)
deriving DecidableEq, Repr

/-- Behaviour of a user-supplied `useFactory` function: return a fixed
value, or allocate and return a fresh plain object. -/
inductive FactoryFn where
  | constVal (v : Value)
  | freshObj
deriving DecidableEq, Repr

/-- Behaviour of a user-supplied `onInit` body.  `resolveOnce t` models a
hook that re-enters `container.resolve(t)` guarded by a module-level
flag (so only the first invocation re-enters) and stores the result in a
module-level variable; `throwErr` models a hook that throws. -/
inductive Hook where
  | hnone
  | resolveOnce (t : Token)
  | throwErr
deriving DecidableEq, Repr

/-- A provider object.  Field presence mirrors the JS object: an absent
field reads as `undefined`, hence `useValue : Value` with `undef` for
absence (the source discriminates it by `useValue !== undefined`), and
`Option` for the others (a constructor / function field is truthy exactly
when present). -/
structure Provider where
  token : Option Token := none
  scope : Option Scope := none
  useClass : Option Nat := none
  useValue : Value := Value.undef
  useFactory : Option FactoryFn := none
  deps : Option (List Token) := none
deriving DecidableEq, Repr

/-- A class definition: its `name`, the static `inject` token list, the
`propertyInjections` metadata registered for it by `@Inject` decorators
(in registration order), the fields its constructor itself assigns, and
its `onInit` behaviour (`Hook.hnone` when the class has no `onInit`). -/
structure ClassDef where
  name : Option String := none
  inject : List Token := []
  props : List (String × Token) := []
  ctorFields : List (String × Value) := []
  hook : Hook := Hook.hnone
deriving DecidableEq, Repr

/-- One property of a heap object, with the attribute flags that
`Object.defineProperty` controls. -/
structure ObjField where
  key : String
  value : Value
  enumerable : Bool
  writable : Bool
  configurable : Bool
deriving DecidableEq, Repr

/-- A heap object: the class whose constructor built it (`none` for a
plain object) and its properties. -/
structure Obj where
  classId : Option Nat := none
  fields : List ObjField := []
deriving DecidableEq, Repr

/-- One `Container`: its provider table, its singleton cache and the
optional parent reference, exactly the three private fields of the
source class.  The maps are association lists in insertion order. -/
structure Container where
  providers : List (Token × Provider) := []
  singletons : List (Token × Value) := []
  parent : Option Nat := none
deriving DecidableEq, Repr

/-- The whole mutable state: all containers (a container reference is an
index into this list), the class table, the heap, the allocation counter,
and the module-level flag/variable used by the `Hook.resolveOnce` model. -/
structure World where
  containers : List Container
  classes : List ClassDef := []
  heap : List (Nat × Obj) := []
  nextObj : Nat := 0
  hookFlag : Bool := false
  hookResult : Option Value := none
deriving DecidableEq, Repr

/-- The three error classes of the source plus the two artefacts of the
embedding: `hookThrown` stands for whatever a user `onInit` body throws,
`outOfFuel` for exhausted recursion fuel. -/
inductive DIError where
  | resolution (msg : String)
  | circular (msg : String)
  | notFound (msg : String)
  | hookThrown
  | outOfFuel
deriving DecidableEq, Repr

/-! ## Association-list and state helpers -/

/-- `Map.get` on an association list. -/
def assocFind {κ α : Type} [DecidableEq κ] : List (κ × α) → κ → Option α
  | [], _ => none
  | (k, v) :: rest, t => if k = t then some v else assocFind rest t

/-- `Map.set` on an association list: overwrite in place, else append. -/
def assocSet {κ α : Type} [DecidableEq κ] : List (κ × α) → κ → α → List (κ × α)
  | [], t, v => [(t, v)]
  | (k, w) :: rest, t, v =>
    if k = t then (t, v) :: rest else (k, w) :: assocSet rest t v

/-- Read a container by reference. -/
def getContainer (w : World) (cid : Nat) : Option Container :=
  w.containers[cid]?

/-- Replace a container in the world. -/
def setContainer (w : World) (cid : Nat) (c : Container) : World :=
  { w with containers := w.containers.set cid c }

/-- `this.singletons.get(k)` of container `cid`. -/
def cacheLookup (w : World) (cid : Nat) (k : Token) : Option Value :=
  match getContainer w cid with
  | some c => assocFind c.singletons k
  | none => none

/-- `this.singletons.set(k, v)` of container `cid`. -/
def cacheSet (w : World) (cid : Nat) (k : Token) (v : Value) : World :=
  match getContainer w cid with
  | some c => setContainer w cid { c with singletons := assocSet c.singletons k v }
  | none => w

/-- Read an object off the heap. -/
def heapGet (h : List (Nat × Obj)) (n : Nat) : Option Obj :=
  assocFind h n

/-- `Object.defineProperty(instance, key, { configurable: true,
enumerable: true, writable: true, value })`: overwrite the property if
present, else add it, the flags set to `true` either way. -/
def setField : List ObjField → String → Value → List ObjField
  | [], key, v => [⟨key, v, true, true, true⟩]
  | f :: rest, key, v =>
    if f.key = key then ⟨key, v, true, true, true⟩ :: rest
    else f :: setField rest key v

/-- Update one property of heap object `n`. -/
def setFieldW (w : World) (n : Nat) (key : String) (v : Value) : World :=
  match heapGet w.heap n with
  | some o => { w with heap := assocSet w.heap n { o with fields := setField o.fields key v } }
  | none => w

/-- Look a property up on a heap object. -/
def fieldLookup (w : World) (n : Nat) (key : String) : Option ObjField :=
  match heapGet w.heap n with
  | some o => o.fields.find? (fun f => f.key = key)
  | none => none

/-! ## Token utilities and registration -/

/-- `tokenToString`: a string renders as itself, a symbol as
`t.description ?? t.toString()`, a constructor as
`(t as any).name ?? "[AnonymousClass]"`. -/
def tokenToString (classes : List ClassDef) : Token → String
  | Token.str s => s
  | Token.sym _ d =>
    match d with
    | some s => s
    | none => "Symbol()"
  | Token.ctor cid =>
    match classes[cid]? with
    | some cd =>
      match cd.name with
      | some n => n
      | none => "[AnonymousClass]"
    | none => "[AnonymousClass]"

/-- JS falsiness of a token value: the empty string is the only falsy
token (symbols and constructors are always truthy). -/
def tokenFalsy : Token → Bool
  | Token.str s => s = ""
  | _ => false

/-- `setProvider`: `if (!p || !p.token) throw new ResolutionError(...)`,
then `this.providers.set(p.token, p)`.  No other validation. -/
def setProvider (c : Container) (p : Provider) : Except DIError Container :=
  match p.token with
  | none => Except.error (DIError.resolution "Invalid provider: missing token")
  | some t =>
    if tokenFalsy t then Except.error (DIError.resolution "Invalid provider: missing token")
    else Except.ok { c with providers := assocSet c.providers t p }

/-- `register(...providers)`: `providers.forEach((p) => this.setProvider(p))`.
A thrown error aborts the loop but keeps the mutations already made, so
the result is the partially updated container together with the error,
if any. -/
def registerList (c : Container) : List Provider → Container × Option DIError
  | [] => (c, none)
  | p :: rest =>
    match setProvider c p with
    | Except.ok c1 => registerList c1 rest
    | Except.error e => (c, some e)

/-- `register` on the container referenced by `cid`. -/
def registerAtW (w : World) (cid : Nat) (ps : List Provider) : World × Option DIError :=
  match getContainer w cid with
  | some c => (setContainer w cid (registerList c ps).1, (registerList c ps).2)
  | none => (w, none)

/-- `createChild()`: `new Container(this)` — a fresh container with empty
tables whose parent is the current one.  Returns the new world and the
child's reference. -/
def createChildW (w : World) (cid : Nat) : World × Nat :=
  ({ w with containers := w.containers ++ [{ providers := [], singletons := [], parent := some cid }] },
   w.containers.length)

/-- `getProvider(token)`: check the local table, else delegate to the
parent.  The walk is fuel-indexed only to satisfy the termination
checker; `getProvider` below passes fuel covering any parent chain. -/
def getProviderF : Nat → World → Nat → Token → Option Provider
  | 0, _, _, _ => none
  | fuel+1, w, cid, t =>
    match getContainer w cid with
    | none => none
    | some c =>
      match assocFind c.providers t with
      | some p => some p
      | none =>
        match c.parent with
        | some pid => getProviderF fuel w pid t
        | none => none

/-- `getProvider` with fuel covering every acyclic parent chain. -/
def getProvider (w : World) (cid : Nat) (t : Token) : Option Provider :=
  getProviderF w.containers.length w cid t

/-- `provider.scope ?? Scope.Singleton`. -/
def effScope (p : Provider) : Scope :=
  match p.scope with
  | some s => s
  | none => Scope.Singleton

/-- The key the source uses against the singleton cache:
`provider.token`.  For providers that went through `setProvider` this is
exactly the requested token; the `getD` covers the unreachable
token-less case. -/
def cacheKey (p : Provider) (t : Token) : Token :=
  match p.token with
  | some k => k
  | none => t

/-- The `static inject` array of a class (`(Ctor as any).inject ?? []`). -/
def classInject (w : World) (k : Nat) : List Token :=
  match w.classes[k]? with
  | some cd => cd.inject
  | none => []

/-- `propertyInjections.get(instance.constructor) ?? []`. -/
def propsOf (w : World) (n : Nat) : List (String × Token) :=
  match heapGet w.heap n with
  | some o =>
    match o.classId with
    | some k =>
      match w.classes[k]? with
      | some cd => cd.props
      | none => []
    | none => []
  | none => []

/-- `typeof (instance as any)?.onInit === "function"` and, when it holds,
the behaviour of that `onInit`: only class instances whose class declares
a hook have one. -/
def hookOf (w : World) : Value → Hook
  | Value.obj n =>
    match heapGet w.heap n with
    | some o =>
      match o.classId with
      | some k =>
        match w.classes[k]? with
        | some cd => cd.hook
        | none => Hook.hnone
      | none => Hook.hnone
    | none => Hook.hnone
  | _ => Hook.hnone

/-- `new Ctor(...args)`: allocate a fresh object of class `k`, its fields
those the constructor assigns (ordinary assignments create enumerable,
writable, configurable properties).  The resolved constructor arguments
were already evaluated for their effects by the caller. -/
def construct (w : World) (k : Nat) : Value × World :=
  let n := w.nextObj
  let flds :=
    match w.classes[k]? with
    | some cd => cd.ctorFields.map (fun kv => (⟨kv.1, kv.2, true, true, true⟩ : ObjField))
    | none => []
  (Value.obj n,
   { w with heap := w.heap ++ [(n, { classId := some k, fields := flds })], nextObj := n + 1 })

/-- Run a user factory function (after its `deps` were resolved). -/
def runFactory (w : World) : FactoryFn → Value × World
  | FactoryFn.constVal v => (v, w)
  | FactoryFn.freshObj =>
    let n := w.nextObj
    (Value.obj n, { w with heap := w.heap ++ [(n, { classId := none, fields := [] })], nextObj := n + 1 })

/-- Result of a resolution step: value and world on success, error and
world (mutations before the throw persist) on failure. -/
abbrev DIR := Except (DIError × World) (Value × World)

/-! ## The complete resolver (unnamed reference file / `test.ts`)

`resolveF`, `instantiateF`, `resolveDepsF`, `applyPropsF`,
`applyPropsListF`, `runHookF` translate, line by line, the version of the
container whose `instantiate` throws `ResolutionError("Unknown provider
type")` when no variant matches and whose `resolve` stores Singleton
instances in the cache after the `onInit` hook returns. -/

mutual

def resolveF (fuel : Nat) (w : World) (cid : Nat) (token : Token) (stack : List Token) : DIR :=
  match fuel with
  | 0 => Except.error (DIError.outOfFuel, w)
  | fuel'+1 =>
    if stack.contains token then
      Except.error (DIError.circular
        ("Circular dependency detected: " ++
          String.intercalate " -> " ((stack ++ [token]).map (tokenToString w.classes))), w)
    else
      match getProvider w cid token with
      | none =>
        Except.error (DIError.notFound
          ("No provider for token: " ++ tokenToString w.classes token), w)
      | some provider =>
        let scope := effScope provider
        let key := cacheKey provider token
        match (if scope = Scope.Singleton then cacheLookup w cid key else none) with
        | some v => Except.ok (v, w)
        | none =>
          match instantiateF fuel' w cid provider (stack ++ [token]) with
          | Except.error ew => Except.error ew
          | Except.ok (inst, w1) =>
            match applyPropsF fuel' w1 cid inst with
            | Except.error ew => Except.error ew
            | Except.ok w2 =>
              match runHookF fuel' w2 cid inst with
              | Except.error ew => Except.error ew
              | Except.ok w3 =>
                Except.ok (inst,
                  if scope = Scope.Singleton then cacheSet w3 cid key inst else w3)
termination_by structural fuel

def instantiateF (fuel : Nat) (w : World) (cid : Nat) (provider : Provider) (stack : List Token) : DIR :=
  match fuel with
  | 0 => Except.error (DIError.outOfFuel, w)
  | fuel'+1 =>
    match provider.useClass with
    | some k =>
      match resolveDepsF fuel' w cid (classInject w k) stack with
      | Except.error ew => Except.error ew
      | Except.ok (_, w1) => Except.ok (construct w1 k)
    | none =>
      match provider.useFactory with
      | some f =>
        match resolveDepsF fuel' w cid (match provider.deps with | some d => d | none => []) stack with
        | Except.error ew => Except.error ew
        | Except.ok (_, w1) => Except.ok (runFactory w1 f)
      | none =>
        if provider.useValue ≠ Value.undef then Except.ok (provider.useValue, w)
        else Except.error (DIError.resolution "Unknown provider type", w)
termination_by structural fuel

def resolveDepsF (fuel : Nat) (w : World) (cid : Nat) (ds : List Token) (stack : List Token) :
    Except (DIError × World) (List Value × World) :=
  match fuel with
  | 0 => Except.error (DIError.outOfFuel, w)
  | fuel'+1 =>
    match ds with
    | [] => Except.ok ([], w)
    | d :: rest =>
      match resolveF fuel' w cid d stack with
      | Except.error ew => Except.error ew
      | Except.ok (v, w1) =>
        match resolveDepsF fuel' w1 cid rest stack with
        | Except.error ew => Except.error ew
        | Except.ok (vs, w2) => Except.ok (v :: vs, w2)
termination_by structural fuel

def applyPropsF (fuel : Nat) (w : World) (cid : Nat) (inst : Value) :
    Except (DIError × World) World :=
  match fuel with
  | 0 => Except.error (DIError.outOfFuel, w)
  | fuel'+1 =>
    match inst with
    | Value.obj n => applyPropsListF fuel' w cid n (propsOf w n)
    | _ => Except.ok w
termination_by structural fuel

def applyPropsListF (fuel : Nat) (w : World) (cid : Nat) (n : Nat) (l : List (String × Token)) :
    Except (DIError × World) World :=
  match fuel with
  | 0 => Except.error (DIError.outOfFuel, w)
  | fuel'+1 =>
    match l with
    | [] => Except.ok w
    | (key, tok) :: rest =>
      match resolveF fuel' w cid tok [] with
      | Except.error ew => Except.error ew
      | Except.ok (v, w1) => applyPropsListF fuel' (setFieldW w1 n key v) cid n rest
termination_by structural fuel

def runHookF (fuel : Nat) (w : World) (cid : Nat) (inst : Value) :
    Except (DIError × World) World :=
  match fuel with
  | 0 => Except.error (DIError.outOfFuel, w)
  | fuel'+1 =>
    match hookOf w inst with
    | Hook.hnone => Except.ok w
    | Hook.throwErr => Except.error (DIError.hookThrown, w)
    | Hook.resolveOnce t =>
      if w.hookFlag then Except.ok w
      else
        match resolveF fuel' { w with hookFlag := true } cid t [] with
        | Except.error ew => Except.error ew
        | Except.ok (v, w1) => Except.ok { w1 with hookResult := some v }
termination_by structural fuel

end

/-! ## The `src/di.ts` resolver

Identical to the above except for the two omissions in `src/di.ts`:
`instantiateDiF` has no final `throw` (a provider matching no variant
falls off the end of the function, returning `undefined`), and
`resolveDiF` has no `this.singletons.set(...)` block (the Singleton
cache is consulted but never populated). -/

mutual

def resolveDiF (fuel : Nat) (w : World) (cid : Nat) (token : Token) (stack : List Token) : DIR :=
  match fuel with
  | 0 => Except.error (DIError.outOfFuel, w)
  | fuel'+1 =>
    if stack.contains token then
      Except.error (DIError.circular
        ("Circular dependency detected: " ++
          String.intercalate " -> " ((stack ++ [token]).map (tokenToString w.classes))), w)
    else
      match getProvider w cid token with
      | none =>
        Except.error (DIError.notFound
          ("No provider for token: " ++ tokenToString w.classes token), w)
      | some provider =>
        let scope := effScope provider
        let key := cacheKey provider token
        match (if scope = Scope.Singleton then cacheLookup w cid key else none) with
        | some v => Except.ok (v, w)
        | none =>
          match instantiateDiF fuel' w cid provider (stack ++ [token]) with
          | Except.error ew => Except.error ew
          | Except.ok (inst, w1) =>
            match applyPropsDiF fuel' w1 cid inst with
            | Except.error ew => Except.error ew
            | Except.ok w2 =>
              match runHookDiF fuel' w2 cid inst with
              | Except.error ew => Except.error ew
              | Except.ok w3 => Except.ok (inst, w3)
termination_by structural fuel

def instantiateDiF (fuel : Nat) (w : World) (cid : Nat) (provider : Provider) (stack : List Token) : DIR :=
  match fuel with
  | 0 => Except.error (DIError.outOfFuel, w)
  | fuel'+1 =>
    match provider.useClass with
    | some k =>
      match resolveDepsDiF fuel' w cid (classInject w k) stack with
      | Except.error ew => Except.error ew
      | Except.ok (_, w1) => Except.ok (construct w1 k)
    | none =>
      match provider.useFactory with
      | some f =>
        match resolveDepsDiF fuel' w cid (match provider.deps with | some d => d | none => []) stack with
        | Except.error ew => Except.error ew
        | Except.ok (_, w1) => Except.ok (runFactory w1 f)
      | none =>
        if provider.useValue ≠ Value.undef then Except.ok (provider.useValue, w)
        else Except.ok (Value.undef, w)
termination_by structural fuel

def resolveDepsDiF (fuel : Nat) (w : World) (cid : Nat) (ds : List Token) (stack : List Token) :
    Except (DIError × World) (List Value × World) :=
  match fuel with
  | 0 => Except.error (DIError.outOfFuel, w)
  | fuel'+1 =>
    match ds with
    | [] => Except.ok ([], w)
    | d :: rest =>
      match resolveDiF fuel' w cid d stack with
      | Except.error ew => Except.error ew
      | Except.ok (v, w1) =>
        match resolveDepsDiF fuel' w1 cid rest stack with
        | Except.error ew => Except.error ew
        | Except.ok (vs, w2) => Except.ok (v :: vs, w2)
termination_by structural fuel

def applyPropsDiF (fuel : Nat) (w : World) (cid : Nat) (inst : Value) :
    Except (DIError × World) World :=
  match fuel with
  | 0 => Except.error (DIError.outOfFuel, w)
  | fuel'+1 =>
    match inst with
    | Value.obj n => applyPropsListDiF fuel' w cid n (propsOf w n)
    | _ => Except.ok w
termination_by structural fuel

def applyPropsListDiF (fuel : Nat) (w : World) (cid : Nat) (n : Nat) (l : List (String × Token)) :
    Except (DIError × World) World :=
  match fuel with
  | 0 => Except.error (DIError.outOfFuel, w)
  | fuel'+1 =>
    match l with
    | [] => Except.ok w
    | (key, tok) :: rest =>
      match resolveDiF fuel' w cid tok [] with
      | Except.error ew => Except.error ew
      | Except.ok (v, w1) => applyPropsListDiF fuel' (setFieldW w1 n key v) cid n rest
termination_by structural fuel

def runHookDiF (fuel : Nat) (w : World) (cid : Nat) (inst : Value) :
    Except (DIError × World) World :=
  match fuel with
  | 0 => Except.error (DIError.outOfFuel, w)
  | fuel'+1 =>
    match hookOf w inst with
    | Hook.hnone => Except.ok w
    | Hook.throwErr => Except.error (DIError.hookThrown, w)
    | Hook.resolveOnce t =>
      if w.hookFlag then Except.ok w
      else
        match resolveDiF fuel' { w with hookFlag := true } cid t [] with
        | Except.error ew => Except.error ew
        | Except.ok (v, w1) => Except.ok { w1 with hookResult := some v }
termination_by structural fuel

end

/-! ## `ContainerModule` -/

/-- `ContainerModule(loaders).load(container)`: run each loader in order
against the container.  A loader is modelled as a provider batch. -/
def moduleLoad (w : World) (cid : Nat) : List (List Provider) → World × Option DIError
  | [] => (w, none)
  | ps :: rest =>
    match registerAtW w cid ps with
    | (w1, none) => moduleLoad w1 cid rest
    | (w1, some e) => (w1, some e)

/-! ## Extraction helpers for concrete runs -/

/-- The world carried by a resolution result. -/
def worldOfR (r : DIR) : World :=
  match r with
  | Except.ok (_, w) => w
  | Except.error (_, w) => w

/-- The value of a successful resolution result. -/
def valOfR (r : DIR) : Option Value :=
  match r with
  | Except.ok (v, _) => some v
  | Except.error _ => none

/-- The world carried by a dependency-list resolution result. -/
def worldOfD (r : Except (DIError × World) (List Value × World)) : World :=
  match r with
  | Except.ok (_, w) => w
  | Except.error (_, w) => w

/-- The world carried by an injection / hook result. -/
def worldOfW (r : Except (DIError × World) World) : World :=
  match r with
  | Except.ok w => w
  | Except.error (_, w) => w

/-! ## Invariants of a resolution step

`resolve` mutates only the resolving container's singleton cache, the
heap and the allocation counter (plus the ambient hook flag/variable):
provider tables, parent links and the class table are read-only, and no
container other than the resolving one is touched.  `Step cid w w'`
packages these facts together with monotonicity of the allocation
counter. -/

/-- The read-only projection of a container: provider table and parent. -/
def provPar (c : Container) : List (Token × Provider) × Option Nat :=
  (c.providers, c.parent)

/-- What any activity of container `cid` preserves. -/
structure Step (cid : Nat) (w w' : World) : Prop where
  mono : w.nextObj ≤ w'.nextObj
  classesEq : w'.classes = w.classes
  lenEq : w'.containers.length = w.containers.length
  proj : ∀ j : Nat, (w'.containers[j]?).map provPar = (w.containers[j]?).map provPar
  other : ∀ j : Nat, j ≠ cid → w'.containers[j]? = w.containers[j]?

theorem step_refl (cid : Nat) (w : World) : Step cid w w :=
  ⟨le_refl _, rfl, rfl, fun _ => rfl, fun _ _ => rfl⟩

theorem step_trans {cid : Nat} {w w' w'' : World}
    (h1 : Step cid w w') (h2 : Step cid w' w'') : Step cid w w'' :=
  ⟨le_trans h1.mono h2.mono, h2.classesEq.trans h1.classesEq,
   h2.lenEq.trans h1.lenEq,
   fun j => (h2.proj j).trans (h1.proj j),
   fun j hj => (h2.other j hj).trans (h1.other j hj)⟩

/-- A world change that leaves the container list untouched is a step
(for any container). -/
theorem step_of_eq_containers {cid : Nat} {w w' : World}
    (hc : w'.containers = w.containers) (hcl : w'.classes = w.classes)
    (hn : w.nextObj ≤ w'.nextObj) : Step cid w w' := by
  refine ⟨hn, hcl, ?_, ?_, ?_⟩
  · rw [hc]
  · intro j; rw [hc]
  · intro j _; rw [hc]

theorem step_setFieldW (cid : Nat) (w : World) (n : Nat) (key : String) (v : Value) :
    Step cid w (setFieldW w n key v) := by
  unfold setFieldW
  cases heapGet w.heap n with
  | none => exact step_refl cid w
  | some o => exact step_of_eq_containers rfl rfl (le_refl _)

theorem step_construct (cid : Nat) (w : World) (k : Nat) :
    Step cid w (construct w k).2 :=
  step_of_eq_containers rfl rfl (Nat.le_succ _)

theorem step_runFactory (cid : Nat) (w : World) (f : FactoryFn) :
    Step cid w (runFactory w f).2 := by
  cases f with
  | constVal v => exact step_refl cid w
  | freshObj => exact step_of_eq_containers rfl rfl (Nat.le_succ _)

theorem step_cacheSet (cid : Nat) (w : World) (k : Token) (v : Value) :
    Step cid w (cacheSet w cid k v) := by
  unfold cacheSet
  cases hc : getContainer w cid with
  | none => exact step_refl cid w
  | some c =>
    have hlt : cid < w.containers.length := by
      by_contra hge
      rw [getContainer, List.getElem?_eq_none_iff.mpr (Nat.le_of_not_lt hge)] at hc
      exact Option.noConfusion hc
    refine ⟨le_refl _, rfl, by simp [setContainer], ?_, ?_⟩
    · intro j
      by_cases hj : cid = j
      · subst hj
        show ((w.containers.set cid _)[cid]?).map provPar = _
        rw [List.getElem?_set_self hlt]
        rw [getContainer] at hc
        rw [hc]
        rfl
      · show ((w.containers.set cid _)[j]?).map provPar = _
        rw [List.getElem?_set_ne hj]
    · intro j hj
      show (w.containers.set cid _)[j]? = _
      rw [List.getElem?_set_ne (fun h => hj h.symm)]

/-- `getProvider` reads only the `provPar` projection of the containers. -/
theorem getProviderF_proj {w w' : World}
    (h : ∀ j : Nat, (w'.containers[j]?).map provPar = (w.containers[j]?).map provPar) :
    ∀ (f : Nat) (j : Nat) (t : Token), getProviderF f w' j t = getProviderF f w j t := by
  intro f
  induction f with
  | zero => intro j t; rfl
  | succ f ih =>
    intro j t
    have hj := h j
    simp only [getProviderF, getContainer]
    cases h1 : w.containers[j]? with
    | none =>
      rw [h1] at hj
      cases h2 : w'.containers[j]? with
      | none => rfl
      | some c' => rw [h2] at hj; exact absurd hj (by simp)
    | some c =>
      rw [h1] at hj
      cases h2 : w'.containers[j]? with
      | none => rw [h2] at hj; exact absurd hj (by simp)
      | some c' =>
        rw [h2] at hj
        have hj' : provPar c' = provPar c := by simpa using hj
        have hp : c'.providers = c.providers := congrArg Prod.fst hj'
        have hpar : c'.parent = c.parent := congrArg Prod.snd hj'
        dsimp only
        rw [hp, hpar]
        cases assocFind c.providers t with
        | some p => rfl
        | none =>
          cases c.parent with
          | none => rfl
          | some pid => exact ih pid t

theorem step_getProvider {cid : Nat} {w w' : World} (hs : Step cid w w') :
    ∀ (j : Nat) (t : Token), getProvider w' j t = getProvider w j t := by
  intro j t
  rw [getProvider, getProvider, hs.lenEq]
  exact getProviderF_proj hs.proj _ j t

theorem step_cacheLookup_other {cid : Nat} {w w' : World} (hs : Step cid w w')
    (j : Nat) (hj : j ≠ cid) (t : Token) : cacheLookup w' j t = cacheLookup w j t := by
  rw [cacheLookup, cacheLookup, getContainer, getContainer, hs.other j hj]

/-- Every operation of the resolver family is a `Step` of the resolving
container: allocation grows monotonically, provider tables, parent links
and the class table are untouched, and no other container changes. -/
theorem stepAll : ∀ fuel : Nat,
    (∀ (w : World) (cid : Nat) (t : Token) (stack : List Token),
      Step cid w (worldOfR (resolveF fuel w cid t stack))) ∧
    (∀ (w : World) (cid : Nat) (p : Provider) (stack : List Token),
      Step cid w (worldOfR (instantiateF fuel w cid p stack))) ∧
    (∀ (w : World) (cid : Nat) (ds : List Token) (stack : List Token),
      Step cid w (worldOfD (resolveDepsF fuel w cid ds stack))) ∧
    (∀ (w : World) (cid : Nat) (v : Value),
      Step cid w (worldOfW (applyPropsF fuel w cid v))) ∧
    (∀ (w : World) (cid : Nat) (n : Nat) (l : List (String × Token)),
      Step cid w (worldOfW (applyPropsListF fuel w cid n l))) ∧
    (∀ (w : World) (cid : Nat) (v : Value),
      Step cid w (worldOfW (runHookF fuel w cid v))) := by
  intro fuel
  induction fuel with
  | zero =>
    refine ⟨?_, ?_, ?_, ?_, ?_, ?_⟩ <;> intro w cid <;> intros <;> exact step_refl cid w
  | succ n ih =>
    obtain ⟨ihR, ihI, ihD, ihP, ihL, ihH⟩ := ih
    refine ⟨?_, ?_, ?_, ?_, ?_, ?_⟩
    · -- resolveF
      intro w cid t stack
      simp only [resolveF]
      split
      · exact step_refl cid w
      · split
        · exact step_refl cid w
        · rename_i provider hprov
          split
          · exact step_refl cid w
          · rename_i hcache
            split
            · rename_i ew heq
              have h1 := ihI w cid provider (stack ++ [t])
              rw [heq] at h1
              exact h1
            · rename_i inst w1 heq
              have h1 := ihI w cid provider (stack ++ [t])
              rw [heq] at h1
              split
              · rename_i ew heq2
                have h2 := ihP w1 cid inst
                rw [heq2] at h2
                exact step_trans h1 h2
              · rename_i w2 heq2
                have h2 := ihP w1 cid inst
                rw [heq2] at h2
                split
                · rename_i ew heq3
                  have h3 := ihH w2 cid inst
                  rw [heq3] at h3
                  exact step_trans (step_trans h1 h2) h3
                · rename_i w3 heq3
                  have h3 := ihH w2 cid inst
                  rw [heq3] at h3
                  split
                  · exact step_trans (step_trans (step_trans h1 h2) h3)
                      (step_cacheSet cid w3 _ _)
                  · exact step_trans (step_trans h1 h2) h3
    · -- instantiateF
      intro w cid p stack
      simp only [instantiateF]
      split
      · rename_i k hk
        split
        · rename_i ew heq
          have h := ihD w cid (classInject w k) stack
          rw [heq] at h
          exact h
        · rename_i vs w1 heq
          have h := ihD w cid (classInject w k) stack
          rw [heq] at h
          exact step_trans h (step_construct cid w1 k)
      · rename_i hk
        split
        · rename_i f hf
          split
          · rename_i ew heq
            have h := ihD w cid (match p.deps with | some d => d | none => []) stack
            rw [heq] at h
            exact h
          · rename_i vs w1 heq
            have h := ihD w cid (match p.deps with | some d => d | none => []) stack
            rw [heq] at h
            exact step_trans h (step_runFactory cid w1 f)
        · split
          · exact step_refl cid w
          · exact step_refl cid w
    · -- resolveDepsF
      intro w cid ds stack
      simp only [resolveDepsF]
      split
      · exact step_refl cid w
      · rename_i d rest
        split
        · rename_i ew heq
          have h := ihR w cid d stack
          rw [heq] at h
          exact h
        · rename_i v w1 heq
          have h := ihR w cid d stack
          rw [heq] at h
          split
          · rename_i ew heq2
            have h2 := ihD w1 cid rest stack
            rw [heq2] at h2
            exact step_trans h h2
          · rename_i vs w2 heq2
            have h2 := ihD w1 cid rest stack
            rw [heq2] at h2
            exact step_trans h h2
    · -- applyPropsF
      intro w cid v
      simp only [applyPropsF]
      split
      · rename_i nn
        exact ihL w cid nn (propsOf w nn)
      · exact step_refl cid w
    · -- applyPropsListF
      intro w cid n' l
      simp only [applyPropsListF]
      split
      · exact step_refl cid w
      · rename_i key tok rest
        split
        · rename_i ew heq
          have h := ihR w cid tok []
          rw [heq] at h
          exact h
        · rename_i v w1 heq
          have h := ihR w cid tok []
          rw [heq] at h
          exact step_trans (step_trans h (step_setFieldW cid w1 n' key v))
            (ihL (setFieldW w1 n' key v) cid n' rest)
    · -- runHookF
      intro w cid v
      simp only [runHookF]
      split
      · exact step_refl cid w
      · exact step_refl cid w
      · rename_i hkv tk hkeq
        split
        · exact step_refl cid w
        · split
          · rename_i ew heq
            have h := ihR { w with hookFlag := true } cid tk []
            rw [heq] at h
            exact step_trans
              (@step_of_eq_containers cid w { w with hookFlag := true } rfl rfl (le_refl _)) h
          · rename_i v1 w1 heq
            have h := ihR { w with hookFlag := true } cid tk []
            rw [heq] at h
            exact step_trans
              (step_trans
                (@step_of_eq_containers cid w { w with hookFlag := true } rfl rfl (le_refl _)) h)
              (@step_of_eq_containers cid w1 { w1 with hookResult := some v1 } rfl rfl (le_refl _))

/-- `Step` fact for `resolveF` alone. -/
theorem step_resolveF (fuel : Nat) (w : World) (cid : Nat) (t : Token) (stack : List Token) :
    Step cid w (worldOfR (resolveF fuel w cid t stack)) :=
  (stepAll fuel).1 w cid t stack

/-- `Step` fact for `resolveDepsF` alone. -/
theorem step_resolveDepsF (fuel : Nat) (w : World) (cid : Nat) (ds : List Token) (stack : List Token) :
    Step cid w (worldOfD (resolveDepsF fuel w cid ds stack)) :=
  (stepAll fuel).2.2.1 w cid ds stack

/-- `Step` fact for `applyPropsF` alone. -/
theorem step_applyPropsF (fuel : Nat) (w : World) (cid : Nat) (v : Value) :
    Step cid w (worldOfW (applyPropsF fuel w cid v)) :=
  (stepAll fuel).2.2.2.1 w cid v

/-- `Step` fact for `runHookF` alone. -/
theorem step_runHookF (fuel : Nat) (w : World) (cid : Nat) (v : Value) :
    Step cid w (worldOfW (runHookF fuel w cid v)) :=
  (stepAll fuel).2.2.2.2.2 w cid v

/-! ## Registration well-formedness

`setProvider` stores every provider under its own token, so in any world
built through `register` a table entry's key and its provider's `token`
field coincide.  `WFtok` captures that invariant; under it the cache key
the source uses (`provider.token`) is the requested token itself. -/

/-- Every provider in every table is stored under its own token. -/
def WFtok (w : World) : Prop :=
  ∀ c ∈ w.containers, ∀ kp ∈ c.providers, kp.2.token = some kp.1

instance (w : World) : Decidable (WFtok w) := by
  unfold WFtok
  infer_instance

theorem assocFind_mem {κ α : Type} [DecidableEq κ] {l : List (κ × α)} {t : κ} {p : α}
    (h : assocFind l t = some p) : (t, p) ∈ l := by
  induction l with
  | nil => exact absurd h (by simp [assocFind])
  | cons kv rest ih =>
    obtain ⟨k, v⟩ := kv
    rw [assocFind] at h
    by_cases hk : k = t
    · rw [if_pos hk] at h
      subst hk
      obtain rfl : v = p := Option.some.inj h
      exact List.mem_cons_self _ _
    · rw [if_neg hk] at h
      exact List.mem_cons_of_mem _ (ih h)

theorem assocFind_set_self {κ α : Type} [DecidableEq κ] (l : List (κ × α)) (k : κ) (v : α) :
    assocFind (assocSet l k v) k = some v := by
  induction l with
  | nil => simp [assocSet, assocFind]
  | cons kv rest ih =>
    obtain ⟨k', v'⟩ := kv
    rw [assocSet]
    by_cases hk : k' = k
    · rw [if_pos hk, assocFind, if_pos rfl]
    · rw [if_neg hk, assocFind, if_neg hk]
      exact ih

theorem assocFind_set_ne {κ α : Type} [DecidableEq κ] (l : List (κ × α)) (k t : κ) (v : α)
    (h : k ≠ t) : assocFind (assocSet l k v) t = assocFind l t := by
  induction l with
  | nil => simp [assocSet, assocFind, if_neg h]
  | cons kv rest ih =>
    obtain ⟨k', v'⟩ := kv
    rw [assocSet]
    by_cases hk : k' = k
    · rw [if_pos hk, assocFind, if_neg h, assocFind, hk, if_neg h]
    · rw [if_neg hk, assocFind, assocFind]
      by_cases ht : k' = t
      · rw [if_pos ht, if_pos ht]
      · rw [if_neg ht, if_neg ht]
        exact ih

/-- A `Step` preserves `WFtok` (provider tables are read-only). -/
theorem step_WFtok {cid : Nat} {w w' : World} (hs : Step cid w w') (hw : WFtok w) :
    WFtok w' := by
  intro c' hc' kp hkp
  obtain ⟨i, hi⟩ := List.getElem?_of_mem hc'
  have hp := hs.proj i
  rw [hi] at hp
  cases h1 : w.containers[i]? with
  | none => rw [h1] at hp; exact absurd hp (by simp)
  | some c =>
    rw [h1] at hp
    have hp' : provPar c' = provPar c := by simpa using hp
    have hpr : c'.providers = c.providers := congrArg Prod.fst hp'
    rw [hpr] at hkp
    exact hw c (List.getElem?_mem h1) kp hkp

/-- Under `WFtok`, a found provider's `token` field is the requested
token. -/
theorem getProviderF_token {w : World} (hw : WFtok w) :
    ∀ (f : Nat) (j : Nat) (t : Token) (p : Provider),
      getProviderF f w j t = some p → p.token = some t := by
  intro f
  induction f with
  | zero => intro j t p h; exact absurd h (by simp [getProviderF])
  | succ f ih =>
    intro j t p h
    rw [getProviderF] at h
    cases h1 : getContainer w j with
    | none => rw [h1] at h; exact absurd h (by simp)
    | some c =>
      rw [h1] at h
      dsimp only at h
      cases h2 : assocFind c.providers t with
      | some q =>
        rw [h2] at h
        have hqp : q = p := Option.some.inj h
        subst hqp
        exact hw c (List.getElem?_mem h1) (t, q) (assocFind_mem h2)
      | none =>
        rw [h2] at h
        dsimp only at h
        cases h3 : c.parent with
        | none => rw [h3] at h; exact absurd h (by simp)
        | some pid => rw [h3] at h; exact ih pid t p h

theorem getProvider_token {w : World} (hw : WFtok w) {j : Nat} {t : Token} {p : Provider}
    (h : getProvider w j t = some p) : p.token = some t :=
  getProviderF_token hw _ j t p h

/-- A successful lookup at `j` implies container `j` exists. -/
theorem getProvider_some_container {w : World} {j : Nat} {t : Token} {p : Provider}
    (h : getProvider w j t = some p) : (getContainer w j).isSome = true := by
  rw [getProvider] at h
  cases hf : w.containers.length with
  | zero => rw [hf] at h; exact absurd h (by simp [getProviderF])
  | succ m =>
    rw [hf, getProviderF] at h
    cases h1 : getContainer w j with
    | none => rw [h1] at h; exact absurd h (by simp)
    | some c => rfl

/-- Writing the cache of one container at one key reads back. -/
theorem cacheLookup_cacheSet_self {w : World} {cid : Nat} {c : Container} (k : Token) (v : Value)
    (hc : getContainer w cid = some c) :
    cacheLookup (cacheSet w cid k v) cid k = some v := by
  have hlt : cid < w.containers.length := by
    by_contra hge
    rw [getContainer, List.getElem?_eq_none_iff.mpr (Nat.le_of_not_lt hge)] at hc
    exact Option.noConfusion hc
  have hset : getContainer
      (setContainer w cid { c with singletons := assocSet c.singletons k v }) cid =
      some { c with singletons := assocSet c.singletons k v } := by
    show (w.containers.set cid _)[cid]? = _
    exact List.getElem?_set_self hlt
  rw [cacheSet, hc]
  dsimp only
  rw [cacheLookup, hset]
  exact assocFind_set_self _ k v

/-- Writing one cache key leaves every other key unchanged. -/
theorem cacheLookup_cacheSet_ne {w : World} {cid : Nat} (k t : Token) (v : Value)
    (h : k ≠ t) : cacheLookup (cacheSet w cid k v) cid t = cacheLookup w cid t := by
  rw [cacheSet]
  cases hc : getContainer w cid with
  | none => rfl
  | some c =>
    have hlt : cid < w.containers.length := by
      by_contra hge
      rw [getContainer, List.getElem?_eq_none_iff.mpr (Nat.le_of_not_lt hge)] at hc
      exact Option.noConfusion hc
    have hset : getContainer
        (setContainer w cid { c with singletons := assocSet c.singletons k v }) cid =
        some { c with singletons := assocSet c.singletons k v } := by
      show (w.containers.set cid _)[cid]? = _
      exact List.getElem?_set_self hlt
    dsimp only
    rw [cacheLookup, hset]
    dsimp only
    rw [assocFind_set_ne _ k t v h, cacheLookup, hc]

/-- `cacheLookup` only reads the containers. -/
theorem cacheLookup_congr {w w' : World} (h : w'.containers = w.containers)
    (cid : Nat) (t : Token) : cacheLookup w' cid t = cacheLookup w cid t := by
  rw [cacheLookup, cacheLookup, getContainer, getContainer, h]

theorem setFieldW_containers (w : World) (n : Nat) (key : String) (v : Value) :
    (setFieldW w n key v).containers = w.containers := by
  rw [setFieldW]
  cases heapGet w.heap n <;> rfl

/-- The module-level hook flag plays no role in provider lookup. -/
theorem getProvider_hookFlag (w : World) (b : Bool) (cid : Nat) (t : Token) :
    getProvider { w with hookFlag := b } cid t = getProvider w cid t := by
  rw [getProvider, getProvider]
  exact @getProviderF_proj w { w with hookFlag := b } (fun _ => rfl) _ cid t

/-- The resolver family never writes a singleton-cache entry for a token
whose provider — as seen from the resolving container — is Transient:
the only cache write in `resolve` is guarded by Singleton scope and, by
`WFtok`, keyed by the very token being resolved. -/
theorem cachePresAll : ∀ fuel : Nat,
    (∀ (w : World) (cid : Nat) (t : Token) (stack : List Token), WFtok w →
      ∀ (t' : Token) (q : Provider), getProvider w cid t' = some q →
        effScope q = Scope.Transient →
        cacheLookup (worldOfR (resolveF fuel w cid t stack)) cid t' = cacheLookup w cid t') ∧
    (∀ (w : World) (cid : Nat) (p : Provider) (stack : List Token), WFtok w →
      ∀ (t' : Token) (q : Provider), getProvider w cid t' = some q →
        effScope q = Scope.Transient →
        cacheLookup (worldOfR (instantiateF fuel w cid p stack)) cid t' = cacheLookup w cid t') ∧
    (∀ (w : World) (cid : Nat) (ds : List Token) (stack : List Token), WFtok w →
      ∀ (t' : Token) (q : Provider), getProvider w cid t' = some q →
        effScope q = Scope.Transient →
        cacheLookup (worldOfD (resolveDepsF fuel w cid ds stack)) cid t' = cacheLookup w cid t') ∧
    (∀ (w : World) (cid : Nat) (v : Value), WFtok w →
      ∀ (t' : Token) (q : Provider), getProvider w cid t' = some q →
        effScope q = Scope.Transient →
        cacheLookup (worldOfW (applyPropsF fuel w cid v)) cid t' = cacheLookup w cid t') ∧
    (∀ (w : World) (cid : Nat) (n : Nat) (l : List (String × Token)), WFtok w →
      ∀ (t' : Token) (q : Provider), getProvider w cid t' = some q →
        effScope q = Scope.Transient →
        cacheLookup (worldOfW (applyPropsListF fuel w cid n l)) cid t' = cacheLookup w cid t') ∧
    (∀ (w : World) (cid : Nat) (v : Value), WFtok w →
      ∀ (t' : Token) (q : Provider), getProvider w cid t' = some q →
        effScope q = Scope.Transient →
        cacheLookup (worldOfW (runHookF fuel w cid v)) cid t' = cacheLookup w cid t') := by
  intro fuel
  induction fuel with
  | zero =>
    refine ⟨?_, ?_, ?_, ?_, ?_, ?_⟩ <;> intro w cid <;> intros <;> rfl
  | succ n ih =>
    obtain ⟨ihR, ihI, ihD, ihP, ihL, ihH⟩ := ih
    refine ⟨?_, ?_, ?_, ?_, ?_, ?_⟩
    · -- resolveF
      intro w cid t stack hw t' q hget' htr
      simp only [resolveF]
      split
      · rfl
      · split
        · rfl
        · rename_i provider hprov
          split
          · rfl
          · rename_i hcache
            split
            · rename_i ew heq
              have h1 := ihI w cid provider (stack ++ [t]) hw t' q hget' htr
              rw [heq] at h1
              exact h1
            · rename_i inst w1 heq
              have hs1 : Step cid w w1 := by
                have h := (stepAll n).2.1 w cid provider (stack ++ [t])
                rw [heq] at h
                exact h
              have hw1 : WFtok w1 := step_WFtok hs1 hw
              have hget1 : getProvider w1 cid t' = some q := by
                rw [step_getProvider hs1]
                exact hget'
              have h1 : cacheLookup w1 cid t' = cacheLookup w cid t' := by
                have h := ihI w cid provider (stack ++ [t]) hw t' q hget' htr
                rw [heq] at h
                exact h
              split
              · rename_i ew heq2
                have h2 := ihP w1 cid inst hw1 t' q hget1 htr
                rw [heq2] at h2
                exact h2.trans h1
              · rename_i w2 heq2
                have hs2 : Step cid w1 w2 := by
                  have h := step_applyPropsF n w1 cid inst
                  rw [heq2] at h
                  exact h
                have hw2 : WFtok w2 := step_WFtok hs2 hw1
                have hget2 : getProvider w2 cid t' = some q := by
                  rw [step_getProvider hs2]
                  exact hget1
                have h2 : cacheLookup w2 cid t' = cacheLookup w cid t' := by
                  have h := ihP w1 cid inst hw1 t' q hget1 htr
                  rw [heq2] at h
                  exact h.trans h1
                split
                · rename_i ew heq3
                  have h3 := ihH w2 cid inst hw2 t' q hget2 htr
                  rw [heq3] at h3
                  exact h3.trans h2
                · rename_i w3 heq3
                  have h3 : cacheLookup w3 cid t' = cacheLookup w cid t' := by
                    have h := ihH w2 cid inst hw2 t' q hget2 htr
                    rw [heq3] at h
                    exact h.trans h2
                  split
                  · rename_i hsc
                    have htok : provider.token = some t := getProvider_token hw hprov
                    have hkey : cacheKey provider t = t := by rw [cacheKey, htok]
                    have hne : t ≠ t' := by
                      intro hEq
                      subst hEq
                      rw [hget'] at hprov
                      have hqp : q = provider := Option.some.inj hprov
                      rw [hqp, hsc] at htr
                      exact Scope.noConfusion htr
                    rw [hkey]
                    show cacheLookup (cacheSet w3 cid t inst) cid t' = cacheLookup w cid t'
                    rw [cacheLookup_cacheSet_ne t t' inst hne]
                    exact h3
                  · exact h3
    · -- instantiateF
      intro w cid p stack hw t' q hget' htr
      simp only [instantiateF]
      split
      · rename_i k hk
        split
        · rename_i ew heq
          have h := ihD w cid (classInject w k) stack hw t' q hget' htr
          rw [heq] at h
          exact h
        · rename_i vs w1 heq
          have h := ihD w cid (classInject w k) stack hw t' q hget' htr
          rw [heq] at h
          exact (cacheLookup_congr rfl cid t').trans h
      · rename_i hk
        split
        · rename_i f hf
          split
          · rename_i ew heq
            have h := ihD w cid (match p.deps with | some d => d | none => []) stack hw t' q hget' htr
            rw [heq] at h
            exact h
          · rename_i vs w1 heq
            have h := ihD w cid (match p.deps with | some d => d | none => []) stack hw t' q hget' htr
            rw [heq] at h
            cases f with
            | constVal v => exact h
            | freshObj => exact (cacheLookup_congr rfl cid t').trans h
        · split
          · rfl
          · rfl
    · -- resolveDepsF
      intro w cid ds stack hw t' q hget' htr
      simp only [resolveDepsF]
      split
      · rfl
      · rename_i d rest
        split
        · rename_i ew heq
          have h := ihR w cid d stack hw t' q hget' htr
          rw [heq] at h
          exact h
        · rename_i v w1 heq
          have hs1 : Step cid w w1 := by
            have h := step_resolveF n w cid d stack
            rw [heq] at h
            exact h
          have hw1 : WFtok w1 := step_WFtok hs1 hw
          have hget1 : getProvider w1 cid t' = some q := by
            rw [step_getProvider hs1]
            exact hget'
          have h1 : cacheLookup w1 cid t' = cacheLookup w cid t' := by
            have h := ihR w cid d stack hw t' q hget' htr
            rw [heq] at h
            exact h
          split
          · rename_i ew heq2
            have h2 := ihD w1 cid rest stack hw1 t' q hget1 htr
            rw [heq2] at h2
            exact h2.trans h1
          · rename_i vs w2 heq2
            have h2 := ihD w1 cid rest stack hw1 t' q hget1 htr
            rw [heq2] at h2
            exact h2.trans h1
    · -- applyPropsF
      intro w cid v hw t' q hget' htr
      simp only [applyPropsF]
      split
      · rename_i nn
        exact ihL w cid nn (propsOf w nn) hw t' q hget' htr
      · rfl
    · -- applyPropsListF
      intro w cid n' l hw t' q hget' htr
      simp only [applyPropsListF]
      split
      · rfl
      · rename_i key tok rest
        split
        · rename_i ew heq
          have h := ihR w cid tok [] hw t' q hget' htr
          rw [heq] at h
          exact h
        · rename_i v w1 heq
          have hs1 : Step cid w w1 := by
            have h := step_resolveF n w cid tok []
            rw [heq] at h
            exact h
          have hsF : Step cid w1 (setFieldW w1 n' key v) := step_setFieldW cid w1 n' key v
          have hw1 : WFtok (setFieldW w1 n' key v) :=
            step_WFtok hsF (step_WFtok hs1 hw)
          have hget1 : getProvider (setFieldW w1 n' key v) cid t' = some q := by
            rw [step_getProvider hsF, step_getProvider hs1]
            exact hget'
          have h1 : cacheLookup w1 cid t' = cacheLookup w cid t' := by
            have h := ihR w cid tok [] hw t' q hget' htr
            rw [heq] at h
            exact h
          have h2 := ihL (setFieldW w1 n' key v) cid n' rest hw1 t' q hget1 htr
          exact h2.trans
            (((cacheLookup_congr (setFieldW_containers w1 n' key v) cid t')).trans h1)
    · -- runHookF
      intro w cid v hw t' q hget' htr
      simp only [runHookF]
      split
      · rfl
      · rfl
      · rename_i hkv tk hkeq
        split
        · rfl
        · have hget1 : getProvider { w with hookFlag := true } cid t' = some q := by
            rw [getProvider_hookFlag]
            exact hget'
          split
          · rename_i ew heq
            have h := ihR { w with hookFlag := true } cid tk [] hw t' q hget1 htr
            rw [heq] at h
            exact h
          · rename_i v1 w1 heq
            have h := ihR { w with hookFlag := true } cid tk [] hw t' q hget1 htr
            rw [heq] at h
            exact h

/-! ## Parent-chain well-formedness

`createChild` gives the new container a parent that already exists, so
in any world built through `createChild` every parent reference points
to an earlier container.  Under that invariant provider lookup is
insensitive to the fuel of `getProviderF` (beyond the chain length) and
to containers appended after the one being searched. -/

/-- Every parent reference points strictly backwards. -/
def WFparP (w : World) : Prop :=
  ∀ (j : Nat) (c : Container) (pid : Nat),
    w.containers[j]? = some c → c.parent = some pid → pid < j

/-- Boolean check of one container's parent reference. -/
def parentLTb (i : Nat) (c : Container) : Bool :=
  match c.parent with
  | some pid => pid < i
  | none => true

/-- Decidable check of `WFparP`. -/
def WFparB (w : World) : Bool :=
  w.containers.enum.all (fun ic => parentLTb ic.1 ic.2)

theorem WFparP_of_B {w : World} (h : WFparB w = true) : WFparP w := by
  intro j c pid hj hp
  have hmem : (j, c) ∈ w.containers.enum := List.mk_mem_enum_iff_getElem?.mpr hj
  have hall := List.all_eq_true.mp h (j, c) hmem
  rw [parentLTb, hp] at hall
  exact of_decide_eq_true hall

/-- Lookup reads only containers the search can reach, so two worlds that
agree below `bound` resolve every token identically from any start index
below `bound` (parents point backwards, keeping the walk below `bound`). -/
theorem getProviderF_agree {w w2 : World} {bound : Nat}
    (hag : ∀ m : Nat, m < bound → w2.containers[m]? = w.containers[m]?)
    (hwf : WFparP w) :
    ∀ (f : Nat) (j : Nat), j < bound → ∀ t : Token,
      getProviderF f w2 j t = getProviderF f w j t := by
  intro f
  induction f with
  | zero => intro j hj t; rfl
  | succ f ih =>
    intro j hj t
    rw [getProviderF, getProviderF, getContainer, getContainer, hag j hj]
    cases h1 : w.containers[j]? with
    | none => rfl
    | some c =>
      dsimp only
      cases assocFind c.providers t with
      | some p => rfl
      | none =>
        dsimp only
        cases hp : c.parent with
        | none => rfl
        | some pid => exact ih pid (lt_trans (hwf j c pid h1 hp) hj) t

/-- With backward parents, any fuel beyond the start index resolves the
same provider. -/
theorem getProviderF_fuel {w : World} (hwf : WFparP w) :
    ∀ (j : Nat) (f g : Nat), j < f → j < g → ∀ t : Token,
      getProviderF f w j t = getProviderF g w j t := by
  intro j
  induction j using Nat.strong_induction_on with
  | _ j ih =>
    intro f g hf hg t
    cases f with
    | zero => omega
    | succ f' =>
      cases g with
      | zero => omega
      | succ g' =>
        rw [getProviderF, getProviderF]
        cases h1 : getContainer w j with
        | none => rfl
        | some c =>
          dsimp only
          cases assocFind c.providers t with
          | some p => rfl
          | none =>
            dsimp only
            cases hp : c.parent with
            | none => rfl
            | some pid =>
              have hpid : pid < j := hwf j c pid h1 hp
              exact ih pid hpid f' g' (by omega) (by omega) t

theorem createChildW_getElem_lt (w : World) (cid : Nat) (m : Nat)
    (hm : m < w.containers.length) :
    ((createChildW w cid).1).containers[m]? = w.containers[m]? := by
  show (w.containers ++ [_])[m]? = _
  rw [List.getElem?_append]
  simp [hm]

theorem createChildW_child (w : World) (cid : Nat) :
    getContainer (createChildW w cid).1 (createChildW w cid).2 =
      some { providers := [], singletons := [], parent := some cid } := by
  show (w.containers ++ [_])[w.containers.length]? = _
  exact List.getElem?_concat_length _ _

theorem createChildW_length (w : World) (cid : Nat) :
    ((createChildW w cid).1).containers.length = w.containers.length + 1 := by
  show (w.containers ++ [_]).length = _
  simp

/-- Lookup from an existing container is unaffected by `createChild`. -/
theorem getProvider_childSame (w : World) (cid j : Nat) (hwf : WFparP w)
    (hj : j < w.containers.length) (t : Token) :
    getProvider (createChildW w cid).1 j t = getProvider w j t := by
  rw [getProvider, getProvider, createChildW_length]
  have h1 : getProviderF (w.containers.length + 1) (createChildW w cid).1 j t =
      getProviderF (w.containers.length + 1) w j t :=
    getProviderF_agree (fun m hm => createChildW_getElem_lt w cid m hm) hwf _ j hj t
  rw [h1]
  exact getProviderF_fuel hwf j _ _ (by omega) hj t

/-- Lookup from the fresh child delegates to its parent. -/
theorem getProvider_child (w : World) (cid : Nat) (hwf : WFparP w)
    (hcid : cid < w.containers.length) (t : Token) :
    getProvider (createChildW w cid).1 (createChildW w cid).2 t = getProvider w cid t := by
  rw [getProvider, createChildW_length, getProviderF]
  rw [createChildW_child w cid]
  show getProviderF w.containers.length (createChildW w cid).1 cid t = _
  rw [getProviderF_agree (fun m hm => createChildW_getElem_lt w cid m hm) hwf _ cid hcid t]
  rfl

/-- The fresh child's singleton cache is empty. -/
theorem cacheLookup_child (w : World) (cid : Nat) (t : Token) :
    cacheLookup (createChildW w cid).1 (createChildW w cid).2 t = none := by
  rw [cacheLookup, createChildW_child w cid]
  rfl

/-- `createChild` does not disturb an existing container's cache. -/
theorem cacheLookup_childSame (w : World) (cid j : Nat)
    (hj : j < w.containers.length) (t : Token) :
    cacheLookup (createChildW w cid).1 j t = cacheLookup w j t := by
  rw [cacheLookup, cacheLookup, getContainer, getContainer, createChildW_getElem_lt w cid j hj]

/-- `createChild` preserves `WFtok` (the child's table is empty). -/
theorem WFtok_createChild {w : World} (hw : WFtok w) (cid : Nat) :
    WFtok (createChildW w cid).1 := by
  intro c hc kp hkp
  rcases List.mem_append.mp hc with hmem | hmem
  · exact hw c hmem kp hkp
  · rw [List.mem_singleton] at hmem
    subst hmem
    exact absurd hkp (by simp)

/-- `register` on the fresh child leaves every older container intact. -/
theorem registerAtW_getElem_ne (w : World) (cid : Nat) (ps : List Provider) (m : Nat)
    (hm : m ≠ cid) :
    ((registerAtW w cid ps).1).containers[m]? = w.containers[m]? := by
  rw [registerAtW]
  cases hc : getContainer w cid with
  | none => rfl
  | some c =>
    show (w.containers.set cid _)[m]? = _
    rw [List.getElem?_set_ne (fun h => hm h.symm)]

/-! ## Construction facts -/

theorem cacheSet_nextObj (w : World) (cid : Nat) (k : Token) (v : Value) :
    (cacheSet w cid k v).nextObj = w.nextObj := by
  rw [cacheSet]
  cases getContainer w cid <;> rfl

/-- Instantiating a class provider returns a freshly allocated object:
its id is at least the incoming allocation counter and below the
outgoing one. -/
theorem instantiateF_class {fuel : Nat} {w : World} {cid : Nat} {p : Provider}
    {stack : List Token} {k : Nat} {v : Value} {w' : World}
    (hk : p.useClass = some k)
    (h : instantiateF fuel w cid p stack = Except.ok (v, w')) :
    ∃ n : Nat, v = Value.obj n ∧ w.nextObj ≤ n ∧ n < w'.nextObj := by
  cases fuel with
  | zero => exact absurd h (by simp [instantiateF])
  | succ fuel' =>
    rw [instantiateF] at h
    rw [hk] at h
    dsimp only at h
    split at h
    · exact absurd h (by simp)
    · rename_i vs w1 heq
      have hpair := Except.ok.inj h
      have hv : (construct w1 k).1 = v := congrArg Prod.fst hpair
      have hw' : (construct w1 k).2 = w' := congrArg Prod.snd hpair
      have hs : Step cid w (worldOfD (resolveDepsF fuel' w cid (classInject w k) stack)) :=
        step_resolveDepsF fuel' w cid (classInject w k) stack
      rw [heq] at hs
      refine ⟨w1.nextObj, ?_, hs.mono, ?_⟩
      · rw [← hv]
        simp [construct]
      · rw [← hw']
        exact Nat.lt_succ_self _

/-- Resolving a token bound to a class provider, with no singleton-cache
hit, returns a freshly constructed object. -/
theorem resolveF_class_fresh {fuel : Nat} {w : World} {cid : Nat} {t : Token}
    {stack : List Token} {p : Provider} {k : Nat} {v : Value} {w' : World}
    (hget : getProvider w cid t = some p) (hk : p.useClass = some k)
    (hscr : (if effScope p = Scope.Singleton then cacheLookup w cid (cacheKey p t) else none) = none)
    (hres : resolveF (fuel+1) w cid t stack = Except.ok (v, w')) :
    ∃ n : Nat, v = Value.obj n ∧ w.nextObj ≤ n ∧ n < w'.nextObj := by
  rw [resolveF] at hres
  split at hres
  · exact absurd hres (by simp)
  · rw [hget] at hres
    dsimp only at hres
    rw [hscr] at hres
    dsimp only at hres
    split at hres
    · exact absurd hres (by simp)
    · rename_i inst w1 heq
      split at hres
      · exact absurd hres (by simp)
      · rename_i w2 heq2
        split at hres
        · exact absurd hres (by simp)
        · rename_i w3 heq3
          have hpair := Except.ok.inj hres
          have hv : inst = v := congrArg Prod.fst hpair
          have hw' :
              (if effScope p = Scope.Singleton then cacheSet w3 cid (cacheKey p t) inst else w3) = w' :=
            congrArg Prod.snd hpair
          obtain ⟨n, hn, hlo, hhi⟩ := instantiateF_class hk heq
          have hs2 : Step cid w1 w2 := by
            have h := step_applyPropsF fuel w1 cid inst
            rw [heq2] at h
            exact h
          have hs3 : Step cid w2 w3 := by
            have h := step_runHookF fuel w2 cid inst
            rw [heq3] at h
            exact h
          refine ⟨n, by rw [← hv, hn], hlo, ?_⟩
          have hw'n : w'.nextObj = w3.nextObj := by
            rw [← hw']
            split
            · exact cacheSet_nextObj w3 cid (cacheKey p t) inst
            · rfl
          rw [hw'n]
          exact Nat.lt_of_lt_of_le hhi (le_trans hs2.mono hs3.mono)

/-- A successful Singleton resolution that missed the cache ends by
storing the returned instance in the resolving container's cache. -/
theorem resolveF_singleton_stores {fuel : Nat} {w : World} {cid : Nat} {t : Token}
    {stack : List Token} {p : Provider} {v : Value} {w' : World}
    (hget : getProvider w cid t = some p) (hsc : effScope p = Scope.Singleton)
    (hcache : cacheLookup w cid (cacheKey p t) = none)
    (hres : resolveF (fuel+1) w cid t stack = Except.ok (v, w')) :
    cacheLookup w' cid (cacheKey p t) = some v := by
  have hscr : (if effScope p = Scope.Singleton then cacheLookup w cid (cacheKey p t) else none) = none := by
    rw [hcache]
    simp
  rw [resolveF] at hres
  split at hres
  · exact absurd hres (by simp)
  · rw [hget] at hres
    dsimp only at hres
    rw [hscr] at hres
    dsimp only at hres
    split at hres
    · exact absurd hres (by simp)
    · rename_i inst w1 heq
      split at hres
      · exact absurd hres (by simp)
      · rename_i w2 heq2
        split at hres
        · exact absurd hres (by simp)
        · rename_i w3 heq3
          have hpair := Except.ok.inj hres
          have hv : inst = v := congrArg Prod.fst hpair
          have hw' :
              (if effScope p = Scope.Singleton then cacheSet w3 cid (cacheKey p t) inst else w3) = w' :=
            congrArg Prod.snd hpair
          rw [hsc, if_pos rfl] at hw'
          have hs3 : Step cid w w3 := by
            have h1 : Step cid w w1 := by
              have h := (stepAll fuel).2.1 w cid p (stack ++ [t])
              rw [heq] at h
              exact h
            have h2 : Step cid w1 w2 := by
              have h := step_applyPropsF fuel w1 cid inst
              rw [heq2] at h
              exact h
            have h3 : Step cid w2 w3 := by
              have h := step_runHookF fuel w2 cid inst
              rw [heq3] at h
              exact h
            exact step_trans (step_trans h1 h2) h3
          have hcont : (getContainer w cid).isSome = true := getProvider_some_container hget
          have hcont3 : ∃ c3, getContainer w3 cid = some c3 := by
            have hp := hs3.proj cid
            cases h3c : getContainer w3 cid with
            | some c3 => exact ⟨c3, rfl⟩
            | none =>
              rw [getContainer] at h3c
              rw [h3c] at hp
              cases h0c : getContainer w cid with
              | none => rw [h0c] at hcont; exact absurd hcont (by simp)
              | some c0 =>
                rw [getContainer] at h0c
                rw [h0c] at hp
                exact absurd hp (by simp)
          obtain ⟨c3, hc3⟩ := hcont3
          rw [← hw', ← hv]
          exact cacheLookup_cacheSet_self (cacheKey p t) inst hc3

/-! ## Concrete scenarios

Each scenario is a world as user code would have built it through
`register` / `@Inject` / class definitions; providers sit in the table
under their own token, exactly as `setProvider` stores them. -/

/-- Scenario for C1: one class provider, `{ token: "A", useClass: A }`,
no scope (defaults to Singleton), on a fresh root container. -/
def c1World : World :=
  { containers := [{ providers := [(Token.str "A", { token := some (Token.str "A"), useClass := some 0 })] }],
    classes := [{ name := some "A" }] }

/-- World after the first `di.ts` resolve of `"A"` in `c1World`. -/
def c1World1 : World := worldOfR (resolveDiF 5 c1World 0 (Token.str "A") [])

/-- World after the second `di.ts` resolve of `"A"`. -/
def c1World2 : World := worldOfR (resolveDiF 5 c1World1 0 (Token.str "A") [])

/-- World after the first complete-resolver resolve of `"A"` in `c1World`. -/
def c1WorldS : World := worldOfR (resolveF 5 c1World 0 (Token.str "A") [])

/-- Scenario for C2: a provider carrying a token but none of `useClass`,
`useValue`, `useFactory`. -/
def c2Provider : Provider := { token := some (Token.str "x") }

/-- The C2 provider, registered (it passes `setProvider`'s only check). -/
def c2World : World :=
  { containers := [((registerList {} [c2Provider]).1)] }

/-- Scenario for C4: class providers `A` (class 0) needing `B`, and `B`
(class 1) needing `A`, registered under their constructors as tokens. -/
def c4World : World :=
  { containers := [{ providers :=
      [(Token.ctor 0, { token := some (Token.ctor 0), useClass := some 0 }),
       (Token.ctor 1, { token := some (Token.ctor 1), useClass := some 1 })] }],
    classes := [{ name := some "A", inject := [Token.ctor 1] },
                { name := some "B", inject := [Token.ctor 0] }] }

/-- The Transient value provider of the C3 counterexample. -/
def c3Provider : Provider :=
  { token := some (Token.str "cfg"), useValue := Value.obj 0, scope := some Scope.Transient }

/-- Scenario for the C3 counterexample: a value provider registered with
Transient scope, its `useValue` an existing object (heap id 0). -/
def c3World : World :=
  { containers := [{ providers := [(Token.str "cfg", c3Provider)] }],
    heap := [(0, {})], nextObj := 1 }

/-- Scenario for the C5 counterexample: a parent container holding a
Singleton (default-scope) value provider; the child is created next. -/
def c5World : World :=
  { containers := [{ providers :=
      [(Token.str "cfg", { token := some (Token.str "cfg"), useValue := Value.obj 0 })] }],
    heap := [(0, {})], nextObj := 1 }

/-- `c5World` after `createChild()`; the child is container 1. -/
def c5WorldC : World := (createChildW c5World 0).1

/-- World after `child.resolve("cfg")` in `c5WorldC`. -/
def c5WorldA : World := worldOfR (resolveF 3 c5WorldC 1 (Token.str "cfg") [])

/-- Scenario for C6: class `G` (id 0) declares `@Inject("L") logger`, its
constructor assigns a `ready` field; class `L` (id 1) is plain.  Both
classes are registered as Singleton class providers. -/
def c6World : World :=
  { containers := [{ providers :=
      [(Token.str "G", { token := some (Token.str "G"), useClass := some 0 }),
       (Token.str "L", { token := some (Token.str "L"), useClass := some 1 })] }],
    classes := [{ name := some "G", props := [("logger", Token.str "L")],
                  ctorFields := [("ready", Value.prim 1)] },
                { name := some "L" }] }

/-- The `G` provider of `c6World`. -/
def c6Provider : Provider := { token := some (Token.str "G"), useClass := some 0 }

/-- World after resolving `"G"` in `c6World` (with `"L"` already on the
in-progress stack, which must not disturb property injection). -/
def c6World1 : World := worldOfR (resolveF 10 c6World 0 (Token.str "G") [Token.str "L"])

/-- World right after construction of `G` alone (no injection yet). -/
def c6WorldI : World := worldOfR (instantiateF 10 c6World 0 c6Provider [Token.str "L", Token.str "G"])

/-- Scenario for C10: class `HA` (id 0) is a Singleton whose `onInit`
re-resolves its own token `"HA"` (guarded by a module-level flag) and
stores the result; class `HB` (id 1) is a Singleton whose `onInit`
throws. -/
def c10World : World :=
  { containers := [{ providers :=
      [(Token.str "HA", { token := some (Token.str "HA"), useClass := some 0 }),
       (Token.str "HB", { token := some (Token.str "HB"), useClass := some 1 })] }],
    classes := [{ name := some "HA", hook := Hook.resolveOnce (Token.str "HA") },
                { name := some "HB", hook := Hook.throwErr }] }

/-- World after resolving `"HA"` in `c10World`. -/
def c10WorldA : World := worldOfR (resolveF 10 c10World 0 (Token.str "HA") [])

/-- World left behind by the failed resolve of `"HB"` in `c10World`. -/
def c10WorldB : World := worldOfR (resolveF 10 c10World 0 (Token.str "HB") [])

/-! ## The claims -/

/-- `typeof v === "object"` and truthy — the values on which property
injection actually proceeds (note JS `null` is falsy, so it is skipped
by the `!instance` half of the guard). -/
def isObject : Value → Bool
  | Value.obj _ => true
  | _ => false

/-- Scenario for the C8 witness: a value provider holding `null`. -/
def c8Provider : Provider := { token := some (Token.str "n"), useValue := Value.null }

/-- World for the C8 witness. -/
def c8World : World :=
  { containers := [{ providers := [(Token.str "n", c8Provider)] }] }

/-- Scenario for C9: a provider carrying *both* `useClass` (class 0) and
`useValue` (a string). -/
def c9Provider : Provider :=
  { token := some (Token.str "B"), useClass := some 0, useValue := Value.strv "v" }

/-- World for C9. -/
def c9World : World :=
  { containers := [{ providers := [(Token.str "B", c9Provider)] }],
    classes := [{ name := some "B" }] }

/-- C1.  The claim — two `resolve` calls for a Singleton-scoped (here
default-scoped) token return the identity-equal cached instance — is the
documented intent (the reference file and `test.ts` implement it, and
`di.ts` still carries the cache *read*), but `src/di.ts` dropped the
`this.singletons.set(provider.token, instance)` block: on its resolver
the two calls construct two distinct objects and the cache stays empty,
while the complete resolver caches the first instance and returns it
again.  Conjuncts 1–3 evaluate `di.ts` at the failing input; conjuncts
4–5 evaluate the complete resolver at the same input. -/
theorem claim_C1 :
    resolveDiF 5 c1World 0 (Token.str "A") [] = Except.ok (Value.obj 0, c1World1) ∧
    resolveDiF 5 c1World1 0 (Token.str "A") [] = Except.ok (Value.obj 1, c1World2) ∧
    cacheLookup c1World2 0 (Token.str "A") = none ∧
    resolveF 5 c1World 0 (Token.str "A") [] = Except.ok (Value.obj 0, c1WorldS) ∧
    resolveF 5 c1WorldS 0 (Token.str "A") [] = Except.ok (Value.obj 0, c1WorldS) := by
  refine ⟨by decide, by decide, by decide, by decide, by decide⟩

/-- C2.  A provider with a token but no payload field passes
registration (conjunct 1), and on the complete resolver instantiation
fails with `ResolutionError("Unknown provider type")` (conjunct 3) — but
`src/di.ts` dropped that final `throw`, so its `instantiate` falls
through and `resolve` silently returns `undefined` with the world
untouched (conjunct 2), contradicting the claim. -/
theorem claim_C2 :
    registerList {} [c2Provider] = ({ providers := [(Token.str "x", c2Provider)] }, none) ∧
    resolveDiF 5 c2World 0 (Token.str "x") [] = Except.ok (Value.undef, c2World) ∧
    resolveF 5 c2World 0 (Token.str "x") [] =
      Except.error (DIError.resolution "Unknown provider type", c2World) := by
  refine ⟨by decide, by decide, by decide⟩

/-- C4.  Cycle detection: whenever the requested token already sits on
the resolution stack, `resolve` fails with a `CircularDependencyError`
whose message is the chain `stack[0] -> ... -> token` in visitation
order (first conjunct, for every world, container, token and stack); in
particular, with class providers `A` needing `B` and `B` needing `A`,
resolving `A` fails with the chain `A -> B -> A` (second conjunct). -/
theorem claim_C4 :
    (∀ (fuel : Nat) (w : World) (cid : Nat) (token : Token) (stack : List Token),
      stack.contains token = true →
      resolveF (fuel+1) w cid token stack =
        Except.error (DIError.circular
          ("Circular dependency detected: " ++
            String.intercalate " -> " ((stack ++ [token]).map (tokenToString w.classes))), w)) ∧
    resolveF 12 c4World 0 (Token.ctor 0) [] =
      Except.error (DIError.circular "Circular dependency detected: A -> B -> A", c4World) := by
  constructor
  · intro fuel w cid token stack h
    have h' : token ∈ stack := by simpa using h
    simp [resolveF, h']
  · decide

/-- C4 witness: the general conjunct of `claim_C4` applied at a concrete
call whose stack already contains the requested token. -/
theorem claim_C4_witness :
    resolveF 1 c4World 0 (Token.str "X") [Token.str "X"] =
      Except.error (DIError.circular "Circular dependency detected: X -> X", c4World) := by
  have h := claim_C4.1 0 c4World 0 (Token.str "X") [Token.str "X"] (by decide)
  simpa using h

/-- C6.  Property injection: resolving `"G"` (class with declared
property injection `("logger", "L")`) succeeds even though `"L"` is
already on the in-progress cycle stack — the injected dependency is
resolved with a fresh empty stack (conjunct 1); the injected field holds
the same instance a direct `resolve("L")` on the same container yields
(conjuncts 2–3: field value `obj 1`, and the direct resolve returns
`obj 1` off the singleton cache without touching the world); the field is
left enumerable and writable; and construction alone (conjunct 4) leaves
the object without the field, so the assignment happens strictly after
the constructor has run. -/
theorem claim_C6 :
    resolveF 10 c6World 0 (Token.str "G") [Token.str "L"] = Except.ok (Value.obj 0, c6World1) ∧
    fieldLookup c6World1 0 "logger" =
      some { key := "logger", value := Value.obj 1, enumerable := true,
             writable := true, configurable := true } ∧
    resolveF 10 c6World1 0 (Token.str "L") [] = Except.ok (Value.obj 1, c6World1) ∧
    instantiateF 10 c6World 0 c6Provider [Token.str "L", Token.str "G"] =
      Except.ok (Value.obj 0, c6WorldI) ∧
    (heapGet c6WorldI.heap 0).isSome = true ∧
    fieldLookup c6WorldI 0 "logger" = none := by
  refine ⟨by decide, by decide, by decide, by decide, by decide, by decide⟩

/-- C10.  The singleton cache is written only after injection and the
`onInit` hook return: resolving `"HA"`, whose `onInit` synchronously
re-resolves `"HA"` on the same container, constructs a second instance
(`obj 1`, recorded by the hook) instead of hitting the cache (conjuncts
1–3; the cache ends up holding the outer instance `obj 0`, the outer
store overwriting the inner one); and resolving `"HB"`, whose `onInit`
throws, propagates the error and leaves no cache entry for `"HB"`
(conjuncts 4–5). -/
theorem claim_C10 :
    resolveF 10 c10World 0 (Token.str "HA") [] = Except.ok (Value.obj 0, c10WorldA) ∧
    c10WorldA.hookResult = some (Value.obj 1) ∧
    cacheLookup c10WorldA 0 (Token.str "HA") = some (Value.obj 0) ∧
    resolveF 10 c10World 0 (Token.str "HB") [] = Except.error (DIError.hookThrown, c10WorldB) ∧
    cacheLookup c10WorldB 0 (Token.str "HB") = none := by
  refine ⟨by decide, by decide, by decide, by decide, by decide⟩

/-- C3 counterexample.  A token registered with Transient scope whose
provider is a *value* provider: both resolvers return the stored object
`obj 0` on every call, with the world unchanged — the two resolve calls
return identity-equal instances, contradicting the claim's "distinct
(not identity-equal) instances" for every Transient-scoped token. -/
theorem counter_C3 :
    getProvider c3World 0 (Token.str "cfg") = some c3Provider ∧
    c3Provider.scope = some Scope.Transient ∧
    resolveF 3 c3World 0 (Token.str "cfg") [] = Except.ok (Value.obj 0, c3World) ∧
    resolveDiF 3 c3World 0 (Token.str "cfg") [] = Except.ok (Value.obj 0, c3World) ∧
    resolveF 3 (worldOfR (resolveF 3 c3World 0 (Token.str "cfg") [])) 0 (Token.str "cfg") [] =
      Except.ok (Value.obj 0, c3World) := by
  refine ⟨by decide, by decide, by decide, by decide, by decide⟩

/-- C5 counterexample.  A Singleton (default-scope) *value* provider
declared on the parent: `child.resolve("cfg")` and a subsequent
`parent.resolve("cfg")` both return the stored object `obj 0` — the two
results are identity-equal, contradicting the claim's "not
identity-equal" for every Singleton token declared on P. -/
theorem counter_C5 :
    createChildW c5World 0 = (c5WorldC, 1) ∧
    resolveF 3 c5WorldC 1 (Token.str "cfg") [] = Except.ok (Value.obj 0, c5WorldA) ∧
    resolveF 3 c5WorldA 0 (Token.str "cfg") [] =
      Except.ok (Value.obj 0, worldOfR (resolveF 3 c5WorldA 0 (Token.str "cfg") [])) := by
  refine ⟨by decide, by decide, by decide⟩

/-- C3 (amended: restricted to class providers, as the value-provider
counterexample `counter_C3` forces).  For every token registered with
Transient scope whose provider is a class provider, two `resolve` calls
on the same container return distinct (not identity-equal) instances,
and the singleton cache entry for that token is unchanged — the
instance is never stored. -/
theorem claim_C3 :
    ∀ (fuel1 fuel2 : Nat) (w : World) (cid : Nat) (t : Token) (p : Provider) (k : Nat)
      (v1 : Value) (w1 : World) (v2 : Value) (w2 : World),
      WFtok w →
      getProvider w cid t = some p →
      p.scope = some Scope.Transient →
      p.useClass = some k →
      resolveF (fuel1+1) w cid t [] = Except.ok (v1, w1) →
      resolveF (fuel2+1) w1 cid t [] = Except.ok (v2, w2) →
      v1 ≠ v2 ∧ cacheLookup w2 cid t = cacheLookup w cid t := by
  intro fuel1 fuel2 w cid t p k v1 w1 v2 w2 hw hget hscope hk hres1 hres2
  have hsc : effScope p = Scope.Transient := by rw [effScope, hscope]
  have hscr : (if effScope p = Scope.Singleton then cacheLookup w cid (cacheKey p t) else none) = none := by
    rw [hsc]
    simp
  obtain ⟨n1, hv1, hlo1, hhi1⟩ := resolveF_class_fresh hget hk hscr hres1
  have hs1 : Step cid w w1 := by
    have h := step_resolveF (fuel1+1) w cid t []
    rw [hres1] at h
    exact h
  have hget1 : getProvider w1 cid t = some p := by
    rw [step_getProvider hs1]
    exact hget
  have hscr1 : (if effScope p = Scope.Singleton then cacheLookup w1 cid (cacheKey p t) else none) = none := by
    rw [hsc]
    simp
  obtain ⟨n2, hv2, hlo2, hhi2⟩ := resolveF_class_fresh hget1 hk hscr1 hres2
  constructor
  · rw [hv1, hv2]
    intro hEq
    have hn : n1 = n2 := Value.obj.inj hEq
    omega
  · have hw1 : WFtok w1 := step_WFtok hs1 hw
    have hc1 : cacheLookup w1 cid t = cacheLookup w cid t := by
      have h := (cachePresAll (fuel1+1)).1 w cid t [] hw t p hget hsc
      rw [hres1] at h
      exact h
    have hc2 : cacheLookup w2 cid t = cacheLookup w1 cid t := by
      have h := (cachePresAll (fuel2+1)).1 w1 cid t [] hw1 t p hget1 hsc
      rw [hres2] at h
      exact h
    exact hc2.trans hc1

/-- World for the C3 witness: a Transient class provider for `"T"`. -/
def c3AWorld : World :=
  { containers := [{ providers :=
      [(Token.str "T",
        { token := some (Token.str "T"), useClass := some 0, scope := some Scope.Transient })] }],
    classes := [{ name := some "T" }] }

/-- World after the first resolve of `"T"` in `c3AWorld`. -/
def c3AWorld1 : World := worldOfR (resolveF 3 c3AWorld 0 (Token.str "T") [])

/-- World after the second resolve of `"T"`. -/
def c3AWorld2 : World := worldOfR (resolveF 3 c3AWorld1 0 (Token.str "T") [])

/-- C3 witness: `claim_C3` applied to the Transient class provider of
`c3AWorld` — the two resolves return `obj 0` and `obj 1`, and the cache
stays without an entry for `"T"`. -/
theorem claim_C3_witness :
    Value.obj 0 ≠ Value.obj 1 ∧
    cacheLookup c3AWorld2 0 (Token.str "T") = cacheLookup c3AWorld 0 (Token.str "T") :=
  claim_C3 2 2 c3AWorld 0 (Token.str "T")
    { token := some (Token.str "T"), useClass := some 0, scope := some Scope.Transient } 0
    (Value.obj 0) c3AWorld1 (Value.obj 1) c3AWorld2
    (by decide) (by decide) rfl rfl (by decide) (by decide)

/-- C5 (amended: the cache-isolation clause is restricted to class
providers, as the value-provider counterexample `counter_C5` forces).
For a parent `P` (container `cid`) and child `C = P.createChild()`:
(1) every token lookup on the fresh child delegates upward, returning
exactly what `P`'s lookup returns; (2) a token not resolvable from `P`,
registered on `C` only, stays unresolvable from `P` and fails there with
`ProviderNotFoundError`; (3) for a Singleton *class* provider declared on
`P` and not yet cached, `C.resolve(T)` then `P.resolve(T)` construct two
distinct (not identity-equal) instances, each container caching its own
in its own singleton cache. -/
theorem claim_C5 :
    (∀ (w : World) (cid : Nat) (t : Token), WFparP w → cid < w.containers.length →
      getProvider (createChildW w cid).1 (createChildW w cid).2 t = getProvider w cid t) ∧
    (∀ (fuel : Nat) (w : World) (cid : Nat) (t : Token) (p : Provider),
      WFparP w → cid < w.containers.length →
      getProvider w cid t = none →
      resolveF (fuel+1)
          ((registerAtW (createChildW w cid).1 (createChildW w cid).2 [p]).1) cid t [] =
        Except.error (DIError.notFound ("No provider for token: " ++ tokenToString w.classes t),
          (registerAtW (createChildW w cid).1 (createChildW w cid).2 [p]).1)) ∧
    (∀ (fuel1 fuel2 : Nat) (w : World) (cid : Nat) (t : Token) (p : Provider) (k : Nat)
       (v1 : Value) (w1 : World) (v2 : Value) (w2 : World),
      WFtok w → WFparP w → cid < w.containers.length →
      getProvider w cid t = some p → p.useClass = some k → effScope p = Scope.Singleton →
      cacheLookup w cid t = none →
      resolveF (fuel1+1) (createChildW w cid).1 (createChildW w cid).2 t [] = Except.ok (v1, w1) →
      resolveF (fuel2+1) w1 cid t [] = Except.ok (v2, w2) →
      v1 ≠ v2 ∧
      cacheLookup w2 (createChildW w cid).2 t = some v1 ∧
      cacheLookup w2 cid t = some v2) := by
  refine ⟨?_, ?_, ?_⟩
  · intro w cid t hwf hcid
    exact getProvider_child w cid hwf hcid t
  · intro fuel w cid t p hwf hcid hnone
    have hag2 : ∀ m : Nat, m < w.containers.length →
        ((registerAtW (createChildW w cid).1 (createChildW w cid).2 [p]).1).containers[m]? =
          w.containers[m]? := by
      intro m hm
      rw [registerAtW_getElem_ne _ _ _ m (by
        show m ≠ (createChildW w cid).2
        have : (createChildW w cid).2 = w.containers.length := rfl
        omega)]
      exact createChildW_getElem_lt w cid m hm
    have hlen2 :
        ((registerAtW (createChildW w cid).1 (createChildW w cid).2 [p]).1).containers.length =
          w.containers.length + 1 := by
      rw [registerAtW, createChildW_child w cid]
      show ((createChildW w cid).1.containers.set _ _).length = _
      rw [List.length_set]
      exact createChildW_length w cid
    have hgp : getProvider
        ((registerAtW (createChildW w cid).1 (createChildW w cid).2 [p]).1) cid t = none := by
      rw [getProvider, hlen2]
      rw [getProviderF_agree hag2 hwf _ cid hcid t]
      rw [getProviderF_fuel hwf cid _ _ (by omega) hcid t]
      exact hnone
    have hcls :
        ((registerAtW (createChildW w cid).1 (createChildW w cid).2 [p]).1).classes = w.classes := by
      rw [registerAtW, createChildW_child w cid]
      rfl
    have hnc : ¬(([] : List Token).contains t = true) := fun h => Bool.false_ne_true h
    rw [resolveF, if_neg hnc, hgp, hcls]
  · intro fuel1 fuel2 w cid t p k v1 w1 v2 w2 hw hwf hcid hget hk hsing hcache hres1 hres2
    have hci : (createChildW w cid).2 = w.containers.length := rfl
    have htok : p.token = some t := getProvider_token hw hget
    have hkey : cacheKey p t = t := by rw [cacheKey, htok]
    have hgetC : getProvider (createChildW w cid).1 (createChildW w cid).2 t = some p := by
      rw [getProvider_child w cid hwf hcid t]
      exact hget
    have hcacheC : cacheLookup (createChildW w cid).1 (createChildW w cid).2 (cacheKey p t) = none := by
      rw [hkey]
      exact cacheLookup_child w cid t
    have hscrC : (if effScope p = Scope.Singleton then
        cacheLookup (createChildW w cid).1 (createChildW w cid).2 (cacheKey p t) else none) = none := by
      rw [hcacheC]
      simp
    obtain ⟨n1, hv1, hlo1, hhi1⟩ := resolveF_class_fresh hgetC hk hscrC hres1
    have hstore1 : cacheLookup w1 (createChildW w cid).2 t = some v1 := by
      rw [← hkey]
      exact resolveF_singleton_stores hgetC hsing hcacheC hres1
    have hs1 : Step (createChildW w cid).2 (createChildW w cid).1 w1 := by
      have h := step_resolveF (fuel1+1) (createChildW w cid).1 (createChildW w cid).2 t []
      rw [hres1] at h
      exact h
    have hget1 : getProvider w1 cid t = some p := by
      rw [step_getProvider hs1 cid t, getProvider_childSame w cid cid hwf hcid t]
      exact hget
    have hcidne : cid ≠ (createChildW w cid).2 := by
      rw [hci]
      omega
    have hcache1 : cacheLookup w1 cid (cacheKey p t) = none := by
      rw [hkey, step_cacheLookup_other hs1 cid hcidne t, cacheLookup_childSame w cid cid hcid t]
      exact hcache
    have hscr1 : (if effScope p = Scope.Singleton then cacheLookup w1 cid (cacheKey p t) else none) = none := by
      rw [hcache1]
      simp
    obtain ⟨n2, hv2, hlo2, hhi2⟩ := resolveF_class_fresh hget1 hk hscr1 hres2
    have hwCn : ((createChildW w cid).1).nextObj = w.nextObj := rfl
    refine ⟨?_, ?_, ?_⟩
    · rw [hv1, hv2]
      intro hEq
      have hn : n1 = n2 := Value.obj.inj hEq
      rw [hwCn] at hlo1
      omega
    · have hs2 : Step cid w1 w2 := by
        have h := step_resolveF (fuel2+1) w1 cid t []
        rw [hres2] at h
        exact h
      have hcine : (createChildW w cid).2 ≠ cid := fun h => hcidne h.symm
      rw [step_cacheLookup_other hs2 (createChildW w cid).2 hcine t]
      exact hstore1
    · rw [← hkey]
      exact resolveF_singleton_stores hget1 hsing hcache1 hres2

/-- World for the C5 witness: a parent container holding a Singleton
(default-scope) class provider for `"P"`. -/
def c5AWorld : World :=
  { containers := [{ providers :=
      [(Token.str "P", { token := some (Token.str "P"), useClass := some 0 })] }],
    classes := [{ name := some "P" }] }

/-- `c5AWorld` after `createChild()`; the child is container 1. -/
def c5AWorldC : World := (createChildW c5AWorld 0).1

/-- World after `child.resolve("P")`. -/
def c5AWorld1 : World := worldOfR (resolveF 3 c5AWorldC 1 (Token.str "P") [])

/-- World after the subsequent `parent.resolve("P")`. -/
def c5AWorld2 : World := worldOfR (resolveF 3 c5AWorld1 0 (Token.str "P") [])

/-- C5 witness: the three conjuncts of `claim_C5` applied to `c5AWorld` —
delegation of `"P"` from the child, `ProviderNotFoundError` on the parent
for a `"U"` registered only on the child, and independent caching of two
distinct `"P"` instances. -/
theorem claim_C5_witness :
    getProvider (createChildW c5AWorld 0).1 (createChildW c5AWorld 0).2 (Token.str "P") =
      getProvider c5AWorld 0 (Token.str "P") ∧
    resolveF 3 ((registerAtW (createChildW c5AWorld 0).1 (createChildW c5AWorld 0).2
        [{ token := some (Token.str "U"), useValue := Value.prim 1 }]).1) 0 (Token.str "U") [] =
      Except.error (DIError.notFound "No provider for token: U",
        (registerAtW (createChildW c5AWorld 0).1 (createChildW c5AWorld 0).2
          [{ token := some (Token.str "U"), useValue := Value.prim 1 }]).1) ∧
    (Value.obj 0 ≠ Value.obj 1 ∧
     cacheLookup c5AWorld2 (createChildW c5AWorld 0).2 (Token.str "P") = some (Value.obj 0) ∧
     cacheLookup c5AWorld2 0 (Token.str "P") = some (Value.obj 1)) := by
  refine ⟨?_, ?_, ?_⟩
  · exact claim_C5.1 c5AWorld 0 (Token.str "P") (WFparP_of_B (by decide)) (by decide)
  · have h := claim_C5.2.1 2 c5AWorld 0 (Token.str "U")
      { token := some (Token.str "U"), useValue := Value.prim 1 }
      (WFparP_of_B (by decide)) (by decide) (by decide)
    exact h
  · exact claim_C5.2.2 2 2 c5AWorld 0 (Token.str "P")
      { token := some (Token.str "P"), useClass := some 0 } 0
      (Value.obj 0) c5AWorld1 (Value.obj 1) c5AWorld2
      (by decide) (WFparP_of_B (by decide)) (by decide) (by decide) rfl rfl
      (by decide) (by decide) (by decide)

/-- C7.  Registering a provider object lacking a token fails with
`ResolutionError("Invalid provider: missing token")` at registration
time and returns the container unchanged — no entry is added to the
provider table (`register` never calls `resolve`, so no resolution is
attempted). -/
theorem claim_C7 :
    ∀ (c : Container) (p : Provider), p.token = none →
      registerList c [p] =
        (c, some (DIError.resolution "Invalid provider: missing token")) := by
  intro c p h
  simp [registerList, setProvider, h]

/-- C7 witness: `claim_C7` applied to an empty container and the empty
provider object. -/
theorem claim_C7_witness :
    registerList {} [{}] =
      ({}, some (DIError.resolution "Invalid provider: missing token")) :=
  claim_C7 {} {} rfl

/-- C8.  When the provider found for a token is a value provider whose
value is not an object (for instance `null` or a primitive), `resolve`
completes without error: instantiation returns the value, property
injection is skipped by its non-object early return, the `onInit` check
does not fault, and the value is returned as-is (the only state change
being the Singleton cache store the scope calls for). -/
theorem claim_C8 :
    ∀ (fuel : Nat) (w : World) (cid : Nat) (t : Token) (stack : List Token) (p : Provider),
      getProvider w cid t = some p →
      p.useClass = none → p.useFactory = none →
      p.useValue ≠ Value.undef → isObject p.useValue = false →
      stack.contains t = false →
      (if effScope p = Scope.Singleton then cacheLookup w cid (cacheKey p t) else none) = none →
      resolveF (fuel+2) w cid t stack =
        Except.ok (p.useValue,
          if effScope p = Scope.Singleton then cacheSet w cid (cacheKey p t) p.useValue
          else w) := by
  intro fuel w cid t stack p hget hcl hfa hv hobj hst hcache
  have hst' : t ∉ stack := by
    intro hmem
    simp [hmem] at hst
  cases hv' : p.useValue with
  | undef => exact absurd hv' hv
  | obj n => simp [isObject, hv'] at hobj
  | null =>
    simp [resolveF, hst', hget, hcache, instantiateF, hcl, hfa, hv',
      applyPropsF, runHookF, hookOf]
  | prim n =>
    simp [resolveF, hst', hget, hcache, instantiateF, hcl, hfa, hv',
      applyPropsF, runHookF, hookOf]
  | strv s =>
    simp [resolveF, hst', hget, hcache, instantiateF, hcl, hfa, hv',
      applyPropsF, runHookF, hookOf]

/-- C8 witness: `claim_C8` applied to a `null`-valued (default-scope)
value provider. -/
theorem claim_C8_witness :
    resolveF 2 c8World 0 (Token.str "n") [] =
      Except.ok (Value.null, cacheSet c8World 0 (Token.str "n") Value.null) := by
  have h := claim_C8 0 c8World 0 (Token.str "n") [] c8Provider (by decide) rfl rfl
    (by decide) rfl rfl (by decide)
  simpa [effScope, cacheKey, c8Provider] using h

/-- C9.  `setProvider` validates only the token — a provider carrying
several payload fields is accepted into the table verbatim (first
conjunct); at instantiation the class variant takes precedence, the
other payload fields being ignored whenever `useClass` is present
(second conjunct); concretely, resolving a provider that carries both
`useClass` and `useValue` constructs a fresh instance of the class
rather than returning the value (third conjunct). -/
theorem claim_C9 :
    (∀ (c : Container) (p : Provider) (t : Token), p.token = some t → tokenFalsy t = false →
      setProvider c p = Except.ok { c with providers := assocSet c.providers t p }) ∧
    (∀ (fuel : Nat) (w : World) (cid : Nat) (p : Provider) (stack : List Token),
      p.useClass.isSome = true →
      instantiateF fuel w cid p stack =
        instantiateF fuel w cid
          { p with useValue := Value.undef, useFactory := none, deps := none } stack) ∧
    resolveF 5 c9World 0 (Token.str "B") [] =
      Except.ok (Value.obj 0, worldOfR (resolveF 5 c9World 0 (Token.str "B") [])) := by
  refine ⟨?_, ?_, by decide⟩
  · intro c p t h hf
    simp [setProvider, h, hf]
  · intro fuel w cid p stack hcl
    cases fuel with
    | zero => rfl
    | succ fuel' =>
      cases hk : p.useClass with
      | none => simp [hk] at hcl
      | some k => simp [instantiateF, hk]

/-- C9 witness: the registration conjunct of `claim_C9` applied to the
two-payload provider `c9Provider`, and its dispatch conjunct applied at
fuel 5 in `c9World`. -/
theorem claim_C9_witness :
    setProvider {} c9Provider =
      Except.ok { providers := [(Token.str "B", c9Provider)] } ∧
    instantiateF 5 c9World 0 c9Provider [] =
      instantiateF 5 c9World 0
        { c9Provider with useValue := Value.undef, useFactory := none, deps := none } [] := by
  constructor
  · have h := claim_C9.1 {} c9Provider (Token.str "B") rfl rfl
    simpa using h
  · exact claim_C9.2.1 5 c9World 0 c9Provider [] rfl

end DI
